import Mathlib

/-!
Verification development for the translation-item collector
(src/librustc_trans/collector.rs).

The collector is embedded shallowly:

* Pure data (types, instances, translation items, the inlining map) become
  inductive types / structures.
* External collaborators (the type/dispatch resolver, HIR and metadata
  queries, session limits) become fields of a context structure `Ctx`;
  the spec lists them as external interfaces, and the collector only
  consumes their answers.
* Fatal user-facing errors, `bug!` internal errors and `assert!` failures
  become the error side of `Except CErr`.
* The recursive functions of the source (`visit_instance_use` through its
  mutual recursion with `visit_drop_use`, `find_vtable_types_for_unsizing`,
  `collect_items_rec`) are given explicit fuel via `Nat.rec` so that every
  definition is a plain structurally-reducing term; fuel exhaustion is the
  distinguished error `CErr.outOfFuel`, and every theorem below is about
  runs that do not exhaust fuel.
-/

namespace Collector

/-- Definition identifiers (`DefId`), modelled as naturals. -/
abbrev DefId := Nat

/-- HIR node identifiers (`NodeId`), modelled as naturals. -/
abbrev NodeId := Nat

/-- Result of `tcx.hir.get_if_local`: either a foreign item node or some
other (non-foreign) local node.  `should_trans_locally` only distinguishes
`NodeForeignItem` from every other constructor. -/
inductive LocalNode where
  | foreignItem
  | otherNode
deriving DecidableEq, Repr

/-- Monomorphic types, covering the constructors the collector inspects:
references, raw pointers, arrays, slices, trait objects (`TyDynamic`,
with an optional principal trait), and nominal types (`TyAdt`, modelled
with one type argument, with `is_box` playing `AdtDef::is_box`; the boxed
content of a `Box` is its type argument, as `boxed_ty` reads `substs[0]`).
`param` is an unsubstituted type parameter, used only by `needs_subst`.
`scalar` covers all remaining leaf types. -/
inductive Ty where
  | scalar (n : Nat)
  | param (idx : Nat)
  | ref (pointee : Ty)
  | rawPtr (pointee : Ty)
  | array (elem : Ty)
  | slice (elem : Ty)
  | dynamic (principal : Option Nat)
  | adt (def_idx : Nat) (is_box : Bool) (arg : Ty)
deriving DecidableEq, Repr

/-- `Ty::is_trait`: is this a trait-object type? -/
def Ty.is_trait : Ty → Bool
  | .dynamic _ => true
  | _ => false

/-- `TypeFoldable::needs_subst`: does the type still mention a type
parameter? -/
def Ty.needs_subst : Ty → Bool
  | .param _ => true
  | .ref t => t.needs_subst
  | .rawPtr t => t.needs_subst
  | .array t => t.needs_subst
  | .slice t => t.needs_subst
  | .adt _ _ t => t.needs_subst
  | .scalar _ => false
  | .dynamic _ => false

/-- Number of type nodes yielded by `ty.walk()`: the type itself plus,
recursively, all its constituent types. -/
def ty_walk_count : Ty → Nat
  | .scalar _ => 1
  | .param _ => 1
  | .dynamic _ => 1
  | .ref t => 1 + ty_walk_count t
  | .rawPtr t => 1 + ty_walk_count t
  | .array t => 1 + ty_walk_count t
  | .slice t => 1 + ty_walk_count t
  | .adt _ _ t => 1 + ty_walk_count t

/-- `ty::InstanceDef`: the kind of a resolved instance. -/
inductive InstanceDef where
  | item (d : DefId)
  | intrinsic (d : DefId)
  | virtualItem (d : DefId) (idx : Nat)
  | fnPtrShim (d : DefId) (t : Ty)
  | dropGlue (d : DefId) (t : Option Ty)
  | closureOnceShim (call_once : DefId)
deriving DecidableEq, Repr

/-- `InstanceDef::def_id`. -/
def InstanceDef.def_id : InstanceDef → DefId
  | .item d => d
  | .intrinsic d => d
  | .virtualItem d _ => d
  | .fnPtrShim d _ => d
  | .dropGlue d _ => d
  | .closureOnceShim d => d

/-- `ty::Instance`: a definition plus a concrete substitution. -/
structure Instance where
  idef : InstanceDef
  substs : List Ty
deriving DecidableEq, Repr

/-- `Instance::mono`: a plain item instance with empty substitution. -/
def Instance.mono (d : DefId) : Instance := ⟨InstanceDef.item d, []⟩

/-- `Instance::def_id`. -/
def Instance.def_id (i : Instance) : DefId := i.idef.def_id

/-- `TransItem`: `Fn(Instance)` or `Static(NodeId)`. -/
inductive TransItem where
  | fn (inst : Instance)
  | staticItem (node_id : NodeId)
deriving DecidableEq, Repr

/-- `InstantiationMode` of `trans_item.rs`: shared single copy versus one
local copy per consumer. -/
inductive InstantiationMode where
  | globallyShared
  | localCopy
deriving DecidableEq, Repr

/-- Failure modes of the collector.  `bug` is a `bug!` internal-compiler
error, `assertionFailure` an `assert!`/`assert_eq!` panic,
`recursionLimit`/`typeLength` the two user-facing fatal diagnostics
(`spanned` records whether a source span was attached, i.e. whether the
definition was local), and `outOfFuel` is the embedding's marker for a
run that exceeded its fuel. -/
inductive CErr where
  | outOfFuel
  | bug
  | assertionFailure
  | recursionLimit (d : DefId) (spanned : Bool)
  | typeLength (truncated_name : String) (suggested_limit : Nat) (spanned : Bool)
deriving DecidableEq, Repr

/-- `InliningMap`: an index from source items to ranges of the single
append-only `targets` sequence.  The `FxHashMap` index is modelled as an
association list looked up by `indexGet`. -/
structure InliningMap where
  index : List (TransItem × Nat × Nat)
  targets : List TransItem
deriving DecidableEq, Repr

/-- `InliningMap::new`. -/
def InliningMap.new : InliningMap := ⟨[], []⟩

/-- Lookup in the `index` map (`self.index.get(&source)`). -/
def InliningMap.indexGet (m : InliningMap) (source : TransItem) : Option (Nat × Nat) :=
  (m.index.find? (fun e => decide (e.1 = source))).map (fun e => e.2)

/-- `InliningMap::record_inlining_canditates`: asserts the source has not
been recorded yet, then appends the targets and records the owned range. -/
def InliningMap.record_inlining_canditates (m : InliningMap) (source : TransItem)
    (ts : List TransItem) : Except CErr InliningMap :=
  if (m.indexGet source).isSome then .error .assertionFailure
  else .ok ⟨m.index ++ [(source, (m.targets.length, m.targets.length + ts.length))],
            m.targets ++ ts⟩

/-- `InliningMap::with_inlining_candidates`: the list of arguments the
callback is invoked with, in order (the slice `targets[start..end]` when
the source is recorded, nothing otherwise). -/
def InliningMap.with_inlining_candidates (m : InliningMap) (source : TransItem) :
    List TransItem :=
  match m.indexGet source with
  | none => []
  | some (s, e) => (m.targets.drop s).take (e - s)

/-- The external collaborators of the collector: session limits, lang
items, HIR/metadata queries, and the type/dispatch resolver.  Every field
corresponds to one query the source performs on `tcx`/`scx`:
`recursion_limit`/`type_length_limit` (session), `drop_in_place_fn`
(`lang_items.drop_in_place_fn()`), `as_local_node_id`, `get_if_local`,
`is_exported_symbol`, `is_foreign_item`, `is_item_mir_available`
(cstore), `type_is_sized`, `struct_lockstep_tails`,
`custom_coerce_unsized` (returns the field index of
`CustomCoerceUnsized::Struct`), `adt_num_fields`/`adt_field_ty`
(`struct_variant().fields`, the field type under the adt's argument),
`vtable_methods` (`traits::get_vtable_methods` on the principal with the
given self type), `resolve` (`monomorphize::resolve`),
`resolve_drop_in_place`, `instance_to_string` (`Display` of instances),
`instantiation_mode`, `collect_neighbours` (the outcome of scanning an
instance's MIR body), `local_def_id`, and `instance_ty`. -/
structure Ctx where
  recursion_limit : Nat
  type_length_limit : Nat
  drop_in_place_fn : Option DefId
  as_local_node_id : DefId → Option NodeId
  get_if_local : DefId → Option LocalNode
  is_exported_symbol : DefId → Bool
  is_foreign_item : DefId → Bool
  is_item_mir_available : DefId → Bool
  type_is_sized : Ty → Bool
  struct_lockstep_tails : Ty → Ty → Ty × Ty
  custom_coerce_unsized : Ty → Ty → Nat
  adt_num_fields : Nat → Nat
  adt_field_ty : Nat → Nat → Ty → Ty
  vtable_methods : Nat → Ty → List (Option (DefId × List Ty))
  resolve : DefId → List Ty → Instance
  resolve_drop_in_place : Ty → Instance
  instance_to_string : Instance → String
  instantiation_mode : TransItem → InstantiationMode
  collect_neighbours : Instance → List TransItem
  local_def_id : NodeId → DefId
  instance_ty : Instance → Ty

/-- `DefIdMap::insert` on the recursion-depth map, modelled as a total
function defaulting to 0 (matching `get().cloned().unwrap_or(0)`). -/
def updateMap (f : DefId → Nat) (k : DefId) (v : Nat) : DefId → Nat :=
  fun x => if x = k then v else f x

/-- The mutable state threaded through `collect_items_rec`: the visited
set (as an insertion-ordered duplicate-free list), the recursion-depth
map, and the inlining map. -/
structure CState where
  visited : List TransItem
  recursion_depths : DefId → Nat
  inlining_map : InliningMap

/-- `should_trans_locally`: shim/drop-glue/intrinsic instance kinds are
always local; a plain item is local exactly when it is a non-foreign
local definition, or an external definition that is neither an exported
symbol nor a foreign item and whose MIR is available — if the MIR is not
available in that last case, this is a `bug!`. -/
def should_trans_locally (ctx : Ctx) (inst : Instance) : Except CErr Bool :=
  match inst.idef with
  | .closureOnceShim _ => .ok true
  | .virtualItem _ _ => .ok true
  | .fnPtrShim _ _ => .ok true
  | .dropGlue _ _ => .ok true
  | .intrinsic _ => .ok true
  | .item d =>
    match ctx.get_if_local d with
    | some .foreignItem => .ok false
    | some .otherNode => .ok true
    | none =>
      if ctx.is_exported_symbol d || ctx.is_foreign_item d then .ok false
      else if !ctx.is_item_mir_available d then .error .bug
      else .ok true

/-- `create_fn_trans_item`. -/
def create_fn_trans_item (inst : Instance) : TransItem := .fn inst

/-- One unfolding of `visit_instance_use`.  The recursive call in the
direct-drop-of-array/slice branch (`visit_drop_use(scx, ety, false, ..)`,
which is `resolve_drop_in_place` followed by `visit_instance_use`) goes
through `recur`. -/
def visit_instance_use_body (ctx : Ctx)
    (recur : Instance → Bool → List TransItem → Except CErr (List TransItem))
    (inst : Instance) (is_direct_call : Bool) (output : List TransItem) :
    Except CErr (List TransItem) := do
  let b ← should_trans_locally ctx inst
  if !b then
    .ok output
  else
    match inst.idef with
    | .intrinsic _ =>
      if !is_direct_call then .error .bug else .ok output
    | .virtualItem _ _ =>
      if !is_direct_call then .ok (output ++ [create_fn_trans_item inst]) else .ok output
    | .dropGlue _ none =>
      if !is_direct_call then .ok (output ++ [create_fn_trans_item inst]) else .ok output
    | .dropGlue _ (some t) => do
      let out ←
        match t, is_direct_call with
        | .array ety, true => recur (ctx.resolve_drop_in_place ety) false output
        | .slice ety, true => recur (ctx.resolve_drop_in_place ety) false output
        | _, _ => .ok output
      .ok (out ++ [create_fn_trans_item inst])
    | .closureOnceShim _ => .ok (output ++ [create_fn_trans_item inst])
    | .item _ => .ok (output ++ [create_fn_trans_item inst])
    | .fnPtrShim _ _ => .ok (output ++ [create_fn_trans_item inst])

/-- Fuelled `visit_instance_use`. -/
def visit_instance_use_fuel (ctx : Ctx) (fuel : Nat) :
    Instance → Bool → List TransItem → Except CErr (List TransItem) :=
  Nat.rec (motive := fun _ => Instance → Bool → List TransItem → Except CErr (List TransItem))
    (fun _ _ _ => .error .outOfFuel)
    (fun _ ih => visit_instance_use_body ctx ih) fuel

/-- `visit_instance_use`.  The recursion depth of the source function is
at most two (the inner `visit_drop_use` passes `is_direct_call = false`,
which disables the only recursive branch), so fuel 2 is always enough. -/
def visit_instance_use (ctx : Ctx) (inst : Instance) (is_direct_call : Bool)
    (output : List TransItem) : Except CErr (List TransItem) :=
  visit_instance_use_fuel ctx 2 inst is_direct_call output

/-- `visit_drop_use`: resolve the drop-in-place instance for a type and
visit it. -/
def visit_drop_use (ctx : Ctx) (t : Ty) (is_direct_call : Bool)
    (output : List TransItem) : Except CErr (List TransItem) :=
  visit_instance_use ctx (ctx.resolve_drop_in_place t) is_direct_call output

/-- One unfolding of `find_vtable_types_for_unsizing`: pointer pairs and
box pairs stop at `ptr_vtable`; same-definition adt pairs consult the
custom-coercion metadata, assert the index in range (the two field counts
agree by construction since both sides share `def_a`), and recurse into
the coerced field pair; anything else is a `bug!` (invalid coercion). -/
def find_vtable_types_for_unsizing_body (ctx : Ctx)
    (recur : Ty → Ty → Except CErr (Ty × Ty))
    (source_ty target_ty : Ty) : Except CErr (Ty × Ty) :=
  let ptr_vtable : Ty → Ty → Except CErr (Ty × Ty) := fun inner_source inner_target =>
    if !ctx.type_is_sized inner_source then .ok (inner_source, inner_target)
    else .ok (ctx.struct_lockstep_tails inner_source inner_target)
  match source_ty, target_ty with
  | .ref a, .ref b => ptr_vtable a b
  | .ref a, .rawPtr b => ptr_vtable a b
  | .rawPtr a, .rawPtr b => ptr_vtable a b
  | .adt def_a box_a arg_a, .adt def_b box_b arg_b =>
    if box_a && box_b then ptr_vtable arg_a arg_b
    else if def_a = def_b then
      let coerce_index := ctx.custom_coerce_unsized source_ty target_ty
      if coerce_index < ctx.adt_num_fields def_a then
        recur (ctx.adt_field_ty def_a coerce_index arg_a)
              (ctx.adt_field_ty def_b coerce_index arg_b)
      else .error .assertionFailure
    else .error .assertionFailure
  | _, _ => .error .bug

/-- Fuelled `find_vtable_types_for_unsizing`. -/
def find_vtable_types_for_unsizing_fuel (ctx : Ctx) (fuel : Nat) :
    Ty → Ty → Except CErr (Ty × Ty) :=
  Nat.rec (motive := fun _ => Ty → Ty → Except CErr (Ty × Ty))
    (fun _ _ => .error .outOfFuel)
    (fun _ ih => find_vtable_types_for_unsizing_body ctx ih) fuel

/-- `find_vtable_types_for_unsizing`, with fuel seeded from the source
type's size (at least one unfolding is always available). -/
def find_vtable_types_for_unsizing (ctx : Ctx) (source_ty target_ty : Ty) :
    Except CErr (Ty × Ty) :=
  find_vtable_types_for_unsizing_fuel ctx (ty_walk_count source_ty) source_ty target_ty

/-- `Iterator::filter` with an effectful (possibly `bug!`-raising)
predicate, used to run `should_trans_locally` over the vtable methods. -/
def filterE {α : Type} (p : α → Except CErr Bool) : List α → Except CErr (List α)
  | [] => .ok []
  | a :: as => do
    let b ← p a
    let rest ← filterE p as
    .ok (if b then a :: rest else rest)

/-- `create_trans_items_for_vtable_methods`: assert monomorphic inputs;
for a trait-object target with a principal, resolve every vtable method
(`get_vtable_methods` already includes supertrait methods), keep those
accepted by `should_trans_locally`, append them, and in every
trait-object case also visit the destructor of the concrete type as an
indirect drop use. -/
def create_trans_items_for_vtable_methods (ctx : Ctx) (trait_ty impl_ty : Ty)
    (output : List TransItem) : Except CErr (List TransItem) :=
  if trait_ty.needs_subst || impl_ty.needs_subst then .error .assertionFailure
  else
    match trait_ty with
    | .dynamic principal => do
      let output ←
        match principal with
        | some trait_def_id => do
          let methods := (ctx.vtable_methods trait_def_id impl_ty).filterMap id
          let resolved := methods.map (fun m => ctx.resolve m.1 m.2)
          let kept ← filterE (should_trans_locally ctx) resolved
          Except.ok (output ++ kept.map create_fn_trans_item)
        | none => .ok output
      visit_drop_use ctx impl_ty false output
    | _ => .ok output

/-- The `Rvalue::Cast(CastKind::Unsize, ..)` arm of
`MirNeighborCollector::visit_rvalue`, with `source_ty`/`target_ty`
already monomorphized by `apply_param_substs`: find the vtable pair and,
when the target is a trait object and the source is not, create the
vtable-method translation items. -/
def visit_rvalue_unsize (ctx : Ctx) (source_ty target_ty : Ty)
    (output : List TransItem) : Except CErr (List TransItem) := do
  let (source_ty, target_ty) ← find_vtable_types_for_unsizing ctx source_ty target_ty
  if target_ty.is_trait && !source_ty.is_trait then
    create_trans_items_for_vtable_methods ctx target_ty source_ty output
  else
    .ok output

/-- `check_recursion_limit`: read the stored depth of the instance's
definition (dividing by four for `drop_in_place`), fail fatally when it
strictly exceeds the session recursion limit (with a span exactly when
the definition is local), otherwise store depth+1 and return the reset
pair `(def_id, depth)`. -/
def check_recursion_limit (ctx : Ctx) (inst : Instance)
    (recursion_depths : DefId → Nat) :
    Except CErr ((DefId × Nat) × (DefId → Nat)) :=
  let d := inst.idef.def_id
  let recursion_depth := recursion_depths d
  let recursion_depth :=
    if some d = ctx.drop_in_place_fn then recursion_depth / 4 else recursion_depth
  if recursion_depth > ctx.recursion_limit then
    .error (.recursionLimit d (ctx.as_local_node_id d).isSome)
  else
    .ok ((d, recursion_depth), updateMap recursion_depths d (recursion_depth + 1))

/-- `check_type_length_limit`: the substitution complexity is the total
`walk` count over all substituted type arguments; when it strictly
exceeds the session type-length limit, fail fatally with the instance
name truncated to 64 characters and a note suggesting twice the current
limit. -/
def check_type_length_limit (ctx : Ctx) (inst : Instance) : Except CErr Unit :=
  let type_length := (inst.substs.map ty_walk_count).sum
  if type_length > ctx.type_length_limit then
    .error (.typeLength ((ctx.instance_to_string inst).take 64)
      (ctx.type_length_limit * 2)
      (ctx.as_local_node_id inst.idef.def_id).isSome)
  else
    .ok ()

/-- `n` successive nested entries into `check_recursion_limit` for the
same instance (the shape of a strictly-growing self-instantiating
definition: each expansion performs the check while all enclosing
expansions are still on the stack). -/
def check_rec_nested (ctx : Ctx) (inst : Instance) :
    Nat → (DefId → Nat) → Except CErr (DefId → Nat)
  | 0, depths => .ok depths
  | n + 1, depths =>
    match check_recursion_limit ctx inst depths with
    | .ok (_, depths') => check_rec_nested ctx inst n depths'
    | .error e => .error e

/-- The instantiation-mode filter of the free function
`record_inlining_canditates`: keep the neighbors whose mode is
`LocalCopy`. -/
def inlining_candidates (ctx : Ctx) (l : List TransItem) : List TransItem :=
  l.filter (fun ti => decide (ctx.instantiation_mode ti = InstantiationMode.localCopy))

/-- Free function `record_inlining_canditates`: filter the callees by
instantiation mode and record them for the caller. -/
def record_inlining_canditates (ctx : Ctx) (caller : TransItem)
    (callees : List TransItem) (m : InliningMap) : Except CErr InliningMap :=
  m.record_inlining_canditates caller (inlining_candidates ctx callees)

/-- The neighbor list computed for one node of `collect_items_rec`
(lines 326-351 of the source): a `Static` visits the drop use of its
type directly and then scans its MIR; a `Fn` scans the instance's MIR
(`collect_neighbours`, consumed as an external query). -/
def neighbors_of (ctx : Ctx) : TransItem → Except CErr (List TransItem)
  | .staticItem node_id =>
    let inst := Instance.mono (ctx.local_def_id node_id)
    (visit_drop_use ctx (ctx.instance_ty inst) true []).map
      (fun drops => drops ++ ctx.collect_neighbours inst)
  | .fn inst => .ok (ctx.collect_neighbours inst)

/-- Sequential expansion of a neighbor list (the `for neighbour in
neighbors` loop). -/
def collect_items_list (recur : TransItem → CState → Except CErr CState) :
    List TransItem → CState → Except CErr CState
  | [], st => .ok st
  | n :: rest, st => do
    let st' ← recur n st
    collect_items_list recur rest st'

/-- One unfolding of `collect_items_rec`: return immediately when the
item was already visited, otherwise insert it, run the recursion and
type-length guards for `Fn` items (a `Static` has no reset), compute the
neighbor list, record the inlining candidates, expand every neighbor,
and finally restore the recursion depth from the reset pair. -/
def collect_body (ctx : Ctx) (recur : TransItem → CState → Except CErr CState)
    (starting_point : TransItem) (st : CState) : Except CErr CState :=
  if starting_point ∈ st.visited then .ok st
  else
    let st1 : CState := { st with visited := st.visited ++ [starting_point] }
    match starting_point with
    | .staticItem _ => do
      let neighbors ← neighbors_of ctx starting_point
      let im ← record_inlining_canditates ctx starting_point neighbors st1.inlining_map
      collect_items_list recur neighbors { st1 with inlining_map := im }
    | .fn inst => do
      let rd ← check_recursion_limit ctx inst st1.recursion_depths
      let _ ← check_type_length_limit ctx inst
      let neighbors ← neighbors_of ctx starting_point
      let im ← record_inlining_canditates ctx starting_point neighbors st1.inlining_map
      let st2 ← collect_items_list recur neighbors
        { st1 with recursion_depths := rd.2, inlining_map := im }
      .ok { st2 with recursion_depths := updateMap st2.recursion_depths rd.1.1 rd.1.2 }

/-- Fuelled `collect_items_rec`. -/
def collect_items_rec (ctx : Ctx) (fuel : Nat) :
    TransItem → CState → Except CErr CState :=
  Nat.rec (motive := fun _ => TransItem → CState → Except CErr CState)
    (fun _ _ => .error .outOfFuel)
    (fun _ ih => collect_body ctx ih) fuel

/-- Does the state record `item` correctly in the inlining map: the item
owns a contiguous range of `targets` whose content is exactly the
`LocalCopy` subset of the item's neighbor list? -/
def recorded_ok (ctx : Ctx) (st : CState) (item : TransItem) : Bool :=
  match neighbors_of ctx item, st.inlining_map.indexGet item with
  | .ok ns, some (s, e) =>
    let cands := inlining_candidates ctx ns
    decide (e ≤ st.inlining_map.targets.length) &&
    decide (e = s + cands.length) &&
    decide ((st.inlining_map.targets.drop s).take (e - s) = cands)
  | _, _ => false

/-- Every visited item is recorded correctly. -/
def inv_recorded (ctx : Ctx) (st : CState) : Bool :=
  st.visited.all (recorded_ok ctx st)

/-! Concrete contexts and states used by witnesses and counterexamples. -/

/-- A baseline context: everything local and available, no interesting
neighbors, generous limits. -/
def trivialCtx : Ctx where
  recursion_limit := 64
  type_length_limit := 1048576
  drop_in_place_fn := none
  as_local_node_id := fun _ => none
  get_if_local := fun _ => some LocalNode.otherNode
  is_exported_symbol := fun _ => false
  is_foreign_item := fun _ => false
  is_item_mir_available := fun _ => true
  type_is_sized := fun _ => false
  struct_lockstep_tails := fun a b => (a, b)
  custom_coerce_unsized := fun _ _ => 0
  adt_num_fields := fun _ => 1
  adt_field_ty := fun _ _ arg => arg
  vtable_methods := fun _ _ => []
  resolve := fun d s => ⟨InstanceDef.item d, s⟩
  resolve_drop_in_place := fun _ => ⟨InstanceDef.dropGlue 99 none, []⟩
  instance_to_string := fun _ => ("f")
  instantiation_mode := fun _ => InstantiationMode.globallyShared
  collect_neighbours := fun _ => []
  local_def_id := fun n => n
  instance_ty := fun _ => Ty.scalar 0

/-- Context of the §8 linkage scenario: the definition lives in a
dependency (`get_if_local` answers `none`), is not an exported symbol,
not a foreign item, and its MIR is not available. -/
def linkageScenarioCtx : Ctx :=
  { trivialCtx with
    get_if_local := fun _ => none
    is_item_mir_available := fun _ => false }

/-- Context with a small recursion limit (the spec's example limit 8). -/
def limit8Ctx : Ctx := { trivialCtx with recursion_limit := 8 }

/-- The empty collector state. -/
def emptyState : CState where
  visited := []
  recursion_depths := fun _ => 0
  inlining_map := InliningMap.new

/-- Context whose drop-in-place definition is `7`; used to exhibit the
depth decay of the drop-in-place special case. -/
def dropCtx : Ctx := { trivialCtx with drop_in_place_fn := some 7 }

/-- The drop-glue instance of `drop_in_place` (its `def_id` is the
`drop_in_place` lang item). -/
def dropInst : Instance := ⟨InstanceDef.dropGlue 7 none, []⟩

/-- A state whose stored recursion depth for definition `7` is `5`. -/
def depth5State : CState where
  visited := []
  recursion_depths := fun d => if d = 7 then 5 else 0
  inlining_map := InliningMap.new

/-- Context for the vtable-completeness scenario: trait `5` has two
object-safe methods `11` (own) and `12` (from a supertrait); `none`
stands for a non-object-safe entry skipped by `filter_map`. -/
def vtableCtx : Ctx :=
  { trivialCtx with
    vtable_methods := fun _ _ => [some (11, []), none, some (12, [])] }

/-- Context where every item is a self-neighbor: the MIR of an instance
references the instance itself (a self-recursive function at a fixed
type). -/
def selfLoopCtx : Ctx :=
  { trivialCtx with
    collect_neighbours := fun inst => [TransItem.fn inst] }

/-- Context with a tiny type-length limit. -/
def shortTypeCtx : Ctx := { trivialCtx with type_length_limit := 2 }

/-- An instance whose single substituted type argument has three type
nodes (`&&u8`, say), exceeding `shortTypeCtx`'s limit of 2. -/
def longTypeInst : Instance :=
  ⟨InstanceDef.item 5, [Ty.ref (Ty.ref (Ty.scalar 0))]⟩

/-! Helper lemmas. -/

theorem ok_bind {α β : Type} (a : α) (f : α → Except CErr β) :
    (Except.ok a : Except CErr α) >>= f = f a := rfl

theorem error_bind {α β : Type} (e : CErr) (f : α → Except CErr β) :
    (Except.error e : Except CErr α) >>= f = .error e := rfl

theorem visit_instance_use_eq (ctx : Ctx) (inst : Instance) (b : Bool)
    (out : List TransItem) :
    visit_instance_use ctx inst b out =
      visit_instance_use_body ctx (visit_instance_use_fuel ctx 1) inst b out := rfl

theorem collect_items_rec_zero (ctx : Ctx) (item : TransItem) (st : CState) :
    collect_items_rec ctx 0 item st = .error .outOfFuel := rfl

theorem collect_items_rec_succ (ctx : Ctx) (fuel : Nat) :
    collect_items_rec ctx (fuel + 1) =
      collect_body ctx (collect_items_rec ctx fuel) := rfl

theorem collect_body_visited (ctx : Ctx) (recur : TransItem → CState → Except CErr CState)
    (item : TransItem) (st : CState) (hmem : item ∈ st.visited) :
    collect_body ctx recur item st = .ok st := by
  unfold collect_body
  rw [if_pos hmem]

theorem collect_body_fn (ctx : Ctx) (recur : TransItem → CState → Except CErr CState)
    (inst : Instance) (st : CState) (hmem : TransItem.fn inst ∉ st.visited) :
    collect_body ctx recur (TransItem.fn inst) st =
      (do
        let rd ← check_recursion_limit ctx inst st.recursion_depths
        let _ ← check_type_length_limit ctx inst
        let neighbors ← neighbors_of ctx (TransItem.fn inst)
        let im ← record_inlining_canditates ctx (TransItem.fn inst) neighbors
          st.inlining_map
        let st2 ← collect_items_list recur neighbors
          { visited := st.visited ++ [TransItem.fn inst], recursion_depths := rd.2,
            inlining_map := im }
        Except.ok { st2 with
          recursion_depths := updateMap st2.recursion_depths rd.1.1 rd.1.2 }) := by
  unfold collect_body
  rw [if_neg hmem]

theorem collect_body_static (ctx : Ctx) (recur : TransItem → CState → Except CErr CState)
    (node : NodeId) (st : CState) (hmem : TransItem.staticItem node ∉ st.visited) :
    collect_body ctx recur (TransItem.staticItem node) st =
      (do
        let neighbors ← neighbors_of ctx (TransItem.staticItem node)
        let im ← record_inlining_canditates ctx (TransItem.staticItem node) neighbors
          st.inlining_map
        collect_items_list recur neighbors
          { visited := st.visited ++ [TransItem.staticItem node],
            recursion_depths := st.recursion_depths, inlining_map := im }) := by
  unfold collect_body
  rw [if_neg hmem]

theorem visit_rvalue_unsize_eq (ctx : Ctx) (source_ty target_ty : Ty)
    (output : List TransItem) (s t : Ty)
    (hfind : find_vtable_types_for_unsizing ctx source_ty target_ty = .ok (s, t)) :
    visit_rvalue_unsize ctx source_ty target_ty output =
      if (t.is_trait && !s.is_trait) = true
      then create_trans_items_for_vtable_methods ctx t s output
      else .ok output := by
  unfold visit_rvalue_unsize
  rw [hfind]
  rfl

theorem create_trans_items_for_vtable_methods_dynamic (ctx : Ctx) (s : Ty) (p : Nat)
    (output : List TransItem) (hns : s.needs_subst = false) :
    create_trans_items_for_vtable_methods ctx (Ty.dynamic (some p)) s output =
      (filterE (should_trans_locally ctx)
        (((ctx.vtable_methods p s).filterMap id).map (fun m => ctx.resolve m.1 m.2))) >>=
      (fun kept => visit_drop_use ctx s false (output ++ kept.map create_fn_trans_item)) := by
  unfold create_trans_items_for_vtable_methods
  rw [if_neg (by simp [Ty.needs_subst, hns] :
    ¬ ((Ty.dynamic (some p)).needs_subst || s.needs_subst) = true)]
  rfl

theorem check_rec_nested_zero (ctx : Ctx) (inst : Instance) (depths : DefId → Nat) :
    check_rec_nested ctx inst 0 depths = .ok depths := rfl

theorem check_rec_nested_succ (ctx : Ctx) (inst : Instance) (n : Nat)
    (depths : DefId → Nat) :
    check_rec_nested ctx inst (n + 1) depths =
      match check_recursion_limit ctx inst depths with
      | .ok (_, depths') => check_rec_nested ctx inst n depths'
      | .error e => .error e := rfl

theorem check_recursion_limit_ok_nondrop (ctx : Ctx) (inst : Instance)
    (depths : DefId → Nat)
    (hnd : some inst.idef.def_id ≠ ctx.drop_in_place_fn)
    (hle : depths inst.idef.def_id ≤ ctx.recursion_limit) :
    check_recursion_limit ctx inst depths =
      .ok ((inst.idef.def_id, depths inst.idef.def_id),
           updateMap depths inst.idef.def_id (depths inst.idef.def_id + 1)) := by
  simp only [check_recursion_limit, if_neg hnd]
  rw [if_neg (by omega : ¬ depths inst.idef.def_id > ctx.recursion_limit)]

theorem check_recursion_limit_ok_drop (ctx : Ctx) (inst : Instance)
    (depths : DefId → Nat)
    (hd : some inst.idef.def_id = ctx.drop_in_place_fn)
    (hle : depths inst.idef.def_id / 4 ≤ ctx.recursion_limit) :
    check_recursion_limit ctx inst depths =
      .ok ((inst.idef.def_id, depths inst.idef.def_id / 4),
           updateMap depths inst.idef.def_id (depths inst.idef.def_id / 4 + 1)) := by
  simp only [check_recursion_limit, if_pos hd]
  rw [if_neg (by omega : ¬ depths inst.idef.def_id / 4 > ctx.recursion_limit)]

theorem check_rec_nested_add (ctx : Ctx) (inst : Instance) :
    ∀ (m n : Nat) (depths : DefId → Nat),
      check_rec_nested ctx inst (m + n) depths =
        match check_rec_nested ctx inst m depths with
        | .ok f => check_rec_nested ctx inst n f
        | .error e => .error e := by
  intro m
  induction m with
  | zero =>
    intro n depths
    rw [Nat.zero_add, check_rec_nested_zero]
  | succ m ih =>
    intro n depths
    rw [Nat.succ_add, check_rec_nested_succ, check_rec_nested_succ]
    cases hc : check_recursion_limit ctx inst depths with
    | error e => rfl
    | ok pr =>
      obtain ⟨pair, depths'⟩ := pr
      exact ih n depths'

theorem check_rec_nested_ok (ctx : Ctx) (inst : Instance)
    (hnd : some inst.idef.def_id ≠ ctx.drop_in_place_fn) :
    ∀ (n : Nat) (depths : DefId → Nat),
      depths inst.idef.def_id + n ≤ ctx.recursion_limit + 1 →
      ∃ f, check_rec_nested ctx inst n depths = .ok f ∧
        f inst.idef.def_id = depths inst.idef.def_id + n := by
  intro n
  induction n with
  | zero => intro depths h; exact ⟨depths, rfl, rfl⟩
  | succ n ih =>
    intro depths h
    rw [check_rec_nested_succ,
      check_recursion_limit_ok_nondrop ctx inst depths hnd (by omega)]
    obtain ⟨f, hf, hval⟩ := ih
      (updateMap depths inst.idef.def_id (depths inst.idef.def_id + 1))
      (by simp [updateMap]; omega)
    refine ⟨f, hf, ?_⟩
    rw [hval]
    simp [updateMap]
    omega

theorem filterE_mem {α : Type} (p : α → Except CErr Bool) :
    ∀ (l r : List α), filterE p l = .ok r →
      ∀ a ∈ l, p a = .ok true → a ∈ r := by
  intro l
  induction l with
  | nil => intro r h a ha; exact absurd ha (List.not_mem_nil a)
  | cons hd tl ih =>
    intro r h a ha hp
    unfold filterE at h
    cases hb : p hd with
    | error e => rw [hb, error_bind] at h; exact absurd h (by simp)
    | ok b =>
      rw [hb, ok_bind] at h
      cases hr : filterE p tl with
      | error e => rw [hr, error_bind] at h; exact absurd h (by simp)
      | ok rest =>
        rw [hr, ok_bind] at h
        have h' := Except.ok.inj h
        rcases List.mem_cons.mp ha with rfl | hmem
        · rw [hp] at hb
          have hb' := (Except.ok.inj hb).symm
          subst hb'
          rw [← h']
          exact List.mem_cons_self _ _
        · have hrest : a ∈ rest := ih rest hr a hmem hp
          rw [← h']
          cases b <;> simp [hrest]

theorem visit_drop_use_dropglue (ctx : Ctx) (t : Ty) (out : List TransItem)
    (dd : DefId) (oty : Option Ty)
    (h : (ctx.resolve_drop_in_place t).idef = InstanceDef.dropGlue dd oty) :
    visit_drop_use ctx t false out =
      .ok (out ++ [create_fn_trans_item (ctx.resolve_drop_in_place t)]) := by
  simp only [visit_drop_use, visit_instance_use_eq, visit_instance_use_body,
    should_trans_locally, h, ok_bind]
  cases oty with
  | none => simp
  | some ty' => cases ty' <;> simp

theorem collect_items_list_pres (P : CState → Prop)
    (recur : TransItem → CState → Except CErr CState)
    (hrec : ∀ it s s', recur it s = .ok s' → P s → P s') :
    ∀ (l : List TransItem) (s s' : CState),
      collect_items_list recur l s = .ok s' → P s → P s' := by
  intro l
  induction l with
  | nil =>
    intro s s' h hp
    rw [show collect_items_list recur [] s = .ok s from rfl] at h
    rw [← Except.ok.inj h]
    exact hp
  | cons n rest ih =>
    intro s s' h hp
    rw [show collect_items_list recur (n :: rest) s =
      (recur n s >>= fun s1 => collect_items_list recur rest s1) from rfl] at h
    cases hr : recur n s with
    | error e =>
      rw [hr, error_bind] at h
      exact absurd h (fun hh => Except.noConfusion hh)
    | ok s1 =>
      rw [hr, ok_bind] at h
      exact ih s1 s' h (hrec n s s1 hr hp)

theorem check_recursion_limit_ok_elim (ctx : Ctx) (inst : Instance)
    (depths : DefId → Nat) (rd : (DefId × Nat) × (DefId → Nat))
    (h : check_recursion_limit ctx inst depths = .ok rd) :
    rd.1.1 = inst.idef.def_id ∧
    rd.1.2 = (if some inst.idef.def_id = ctx.drop_in_place_fn
              then depths inst.idef.def_id / 4 else depths inst.idef.def_id) ∧
    rd.2 = updateMap depths inst.idef.def_id (rd.1.2 + 1) := by
  by_cases hd : some inst.idef.def_id = ctx.drop_in_place_fn
  · simp only [check_recursion_limit, if_pos hd] at h ⊢
    by_cases hl : depths inst.idef.def_id / 4 > ctx.recursion_limit
    · rw [if_pos hl] at h
      exact absurd h (fun hh => Except.noConfusion hh)
    · rw [if_neg hl] at h
      rw [← Except.ok.inj h]
      exact ⟨rfl, rfl, rfl⟩
  · simp only [check_recursion_limit, if_neg hd] at h ⊢
    by_cases hl : depths inst.idef.def_id > ctx.recursion_limit
    · rw [if_pos hl] at h
      exact absurd h (fun hh => Except.noConfusion hh)
    · rw [if_neg hl] at h
      rw [← Except.ok.inj h]
      exact ⟨rfl, rfl, rfl⟩

theorem check_recursion_limit_ok_of_le (ctx : Ctx) (inst : Instance)
    (depths : DefId → Nat)
    (hle : (if some inst.idef.def_id = ctx.drop_in_place_fn
            then depths inst.idef.def_id / 4
            else depths inst.idef.def_id) ≤ ctx.recursion_limit) :
    check_recursion_limit ctx inst depths =
      .ok ((inst.idef.def_id,
        if some inst.idef.def_id = ctx.drop_in_place_fn
        then depths inst.idef.def_id / 4 else depths inst.idef.def_id),
        updateMap depths inst.idef.def_id
          ((if some inst.idef.def_id = ctx.drop_in_place_fn
            then depths inst.idef.def_id / 4 else depths inst.idef.def_id) + 1)) := by
  by_cases hd : some inst.idef.def_id = ctx.drop_in_place_fn
  · rw [if_pos hd] at hle
    simp only [check_recursion_limit, if_pos hd]
    rw [if_neg (by omega : ¬ depths inst.idef.def_id / 4 > ctx.recursion_limit)]
  · rw [if_neg hd] at hle
    simp only [check_recursion_limit, if_neg hd]
    rw [if_neg (by omega : ¬ depths inst.idef.def_id > ctx.recursion_limit)]

theorem collect_fn_ok_elim (ctx : Ctx) (recur : TransItem → CState → Except CErr CState)
    (inst : Instance) (st st' : CState)
    (hmem : TransItem.fn inst ∉ st.visited)
    (h : collect_body ctx recur (TransItem.fn inst) st = .ok st') :
    ∃ rd im st2,
      check_recursion_limit ctx inst st.recursion_depths = .ok rd ∧
      record_inlining_canditates ctx (TransItem.fn inst) (ctx.collect_neighbours inst)
        st.inlining_map = .ok im ∧
      collect_items_list recur (ctx.collect_neighbours inst)
        { visited := st.visited ++ [TransItem.fn inst], recursion_depths := rd.2,
          inlining_map := im } = .ok st2 ∧
      st' = { st2 with
        recursion_depths := updateMap st2.recursion_depths rd.1.1 rd.1.2 } := by
  rw [collect_body_fn ctx recur inst st hmem] at h
  cases hchk : check_recursion_limit ctx inst st.recursion_depths with
  | error e =>
    rw [hchk, error_bind] at h
    exact absurd h (fun hh => Except.noConfusion hh)
  | ok rd =>
    rw [hchk, ok_bind] at h
    replace h : (do
        let _ ← check_type_length_limit ctx inst
        let neighbors ← neighbors_of ctx (TransItem.fn inst)
        let im ← record_inlining_canditates ctx (TransItem.fn inst) neighbors
          st.inlining_map
        let st2 ← collect_items_list recur neighbors
          { visited := st.visited ++ [TransItem.fn inst], recursion_depths := rd.2,
            inlining_map := im }
        Except.ok { st2 with
          recursion_depths := updateMap st2.recursion_depths rd.1.1 rd.1.2 }) =
        Except.ok st' := h
    cases htl : check_type_length_limit ctx inst with
    | error e =>
      rw [htl, error_bind] at h
      exact absurd h (fun hh => Except.noConfusion hh)
    | ok u =>
      rw [htl, ok_bind] at h
      replace h : (do
          let im ← record_inlining_canditates ctx (TransItem.fn inst)
            (ctx.collect_neighbours inst) st.inlining_map
          let st2 ← collect_items_list recur (ctx.collect_neighbours inst)
            { visited := st.visited ++ [TransItem.fn inst], recursion_depths := rd.2,
              inlining_map := im }
          Except.ok { st2 with
            recursion_depths := updateMap st2.recursion_depths rd.1.1 rd.1.2 }) =
          Except.ok st' := h
      cases hrc : record_inlining_canditates ctx (TransItem.fn inst)
          (ctx.collect_neighbours inst) st.inlining_map with
      | error e =>
        rw [hrc, error_bind] at h
        exact absurd h (fun hh => Except.noConfusion hh)
      | ok im =>
        rw [hrc, ok_bind] at h
        replace h : (do
            let st2 ← collect_items_list recur (ctx.collect_neighbours inst)
              { visited := st.visited ++ [TransItem.fn inst],
                recursion_depths := rd.2, inlining_map := im }
            Except.ok { st2 with
              recursion_depths := updateMap st2.recursion_depths rd.1.1 rd.1.2 }) =
            Except.ok st' := h
        cases hlist : collect_items_list recur (ctx.collect_neighbours inst)
            { visited := st.visited ++ [TransItem.fn inst], recursion_depths := rd.2,
              inlining_map := im } with
        | error e =>
          rw [hlist, error_bind] at h
          exact absurd h (fun hh => Except.noConfusion hh)
        | ok st2 =>
          rw [hlist, ok_bind] at h
          replace h : Except.ok { st2 with
              recursion_depths := updateMap st2.recursion_depths rd.1.1 rd.1.2 } =
              Except.ok st' := h
          exact ⟨rd, im, st2, rfl, rfl, hlist, (Except.ok.inj h).symm⟩

theorem collect_static_ok_elim (ctx : Ctx)
    (recur : TransItem → CState → Except CErr CState)
    (node : NodeId) (st st' : CState)
    (hmem : TransItem.staticItem node ∉ st.visited)
    (h : collect_body ctx recur (TransItem.staticItem node) st = .ok st') :
    ∃ ns im,
      neighbors_of ctx (TransItem.staticItem node) = .ok ns ∧
      record_inlining_canditates ctx (TransItem.staticItem node) ns
        st.inlining_map = .ok im ∧
      collect_items_list recur ns
        { visited := st.visited ++ [TransItem.staticItem node],
          recursion_depths := st.recursion_depths, inlining_map := im } = .ok st' := by
  rw [collect_body_static ctx recur node st hmem] at h
  cases hne : neighbors_of ctx (TransItem.staticItem node) with
  | error e =>
    rw [hne, error_bind] at h
    exact absurd h (fun hh => Except.noConfusion hh)
  | ok ns =>
    rw [hne, ok_bind] at h
    replace h : (do
        let im ← record_inlining_canditates ctx (TransItem.staticItem node) ns
          st.inlining_map
        collect_items_list recur ns
          { visited := st.visited ++ [TransItem.staticItem node],
            recursion_depths := st.recursion_depths, inlining_map := im }) =
        Except.ok st' := h
    cases hrc : record_inlining_canditates ctx (TransItem.staticItem node) ns
        st.inlining_map with
    | error e =>
      rw [hrc, error_bind] at h
      exact absurd h (fun hh => Except.noConfusion hh)
    | ok im =>
      rw [hrc, ok_bind] at h
      replace h : collect_items_list recur ns
          { visited := st.visited ++ [TransItem.staticItem node],
            recursion_depths := st.recursion_depths, inlining_map := im } =
          Except.ok st' := h
      exact ⟨ns, im, rfl, hrc, h⟩

theorem collect_preserves_depths (ctx : Ctx) (D : DefId)
    (hD : some D ≠ ctx.drop_in_place_fn) :
    ∀ (fuel : Nat) (item : TransItem) (st st' : CState),
      collect_items_rec ctx fuel item st = .ok st' →
      st'.recursion_depths D = st.recursion_depths D := by
  intro fuel
  induction fuel with
  | zero =>
    intro item st st' h
    rw [collect_items_rec_zero] at h
    exact absurd h (fun hh => Except.noConfusion hh)
  | succ n ih =>
    intro item st st' h
    rw [collect_items_rec_succ] at h
    by_cases hmem : item ∈ st.visited
    · rw [collect_body_visited ctx _ item st hmem] at h
      rw [← Except.ok.inj h]
    · cases item with
      | staticItem node =>
        obtain ⟨ns, im, hne, hrc, hlist⟩ := collect_static_ok_elim ctx _ node st st' hmem h
        exact collect_items_list_pres
          (fun sA => sA.recursion_depths D = st.recursion_depths D) _
          (fun it s s' hs hp => (ih it s s' hs).trans hp) _ _ _ hlist rfl
      | fn inst =>
        obtain ⟨rd, im, st2, hchk, hrc, hlist, hfin⟩ :=
          collect_fn_ok_elim ctx _ inst st st' hmem h
        obtain ⟨hd1, hd2, hd3⟩ := check_recursion_limit_ok_elim ctx inst
          st.recursion_depths rd hchk
        have hpres : st2.recursion_depths D =
            updateMap st.recursion_depths inst.idef.def_id (rd.1.2 + 1) D := by
          rw [← hd3]
          exact collect_items_list_pres
            (fun sA => sA.recursion_depths D = rd.2 D) _
            (fun it s s' hs hp => (ih it s s' hs).trans hp) _ _ _ hlist rfl
        rw [hfin]
        show updateMap st2.recursion_depths rd.1.1 rd.1.2 D = st.recursion_depths D
        rw [hd1]
        by_cases hDd : D = inst.idef.def_id
        · subst hDd
          have h1 : updateMap st2.recursion_depths inst.idef.def_id rd.1.2
              inst.idef.def_id = rd.1.2 := by
            simp [updateMap]
          rw [h1, hd2, if_neg hD]
        · have h1 : updateMap st2.recursion_depths inst.idef.def_id rd.1.2 D =
              st2.recursion_depths D := by
            simp [updateMap, hDd]
          have h2 : updateMap st.recursion_depths inst.idef.def_id (rd.1.2 + 1) D =
              st.recursion_depths D := by
            simp [updateMap, hDd]
          rw [h1, hpres, h2]

theorem record_inlining_canditates_ok (ctx : Ctx) (caller : TransItem)
    (callees : List TransItem) (m m' : InliningMap)
    (h : record_inlining_canditates ctx caller callees m = .ok m') :
    m.indexGet caller = none ∧
    m' = ⟨m.index ++ [(caller, (m.targets.length,
            m.targets.length + (inlining_candidates ctx callees).length))],
          m.targets ++ inlining_candidates ctx callees⟩ := by
  unfold record_inlining_canditates InliningMap.record_inlining_canditates at h
  by_cases hs : (m.indexGet caller).isSome = true
  · rw [if_pos hs] at h
    exact absurd h (fun hh => Except.noConfusion hh)
  · rw [if_neg hs] at h
    refine ⟨?_, (Except.ok.inj h).symm⟩
    cases hx : m.indexGet caller with
    | none => rfl
    | some v => rw [hx] at hs; exact absurd rfl hs

theorem indexGet_record_preserved (idx : List (TransItem × Nat × Nat))
    (tgts tgts' : List TransItem) (entry : TransItem × Nat × Nat)
    (source : TransItem) (r : Nat × Nat)
    (h : InliningMap.indexGet ⟨idx, tgts⟩ source = some r) :
    InliningMap.indexGet ⟨idx ++ [entry], tgts'⟩ source = some r := by
  replace h : (idx.find? (fun e => decide (e.1 = source))).map (fun e => e.2) =
    some r := h
  show ((idx ++ [entry]).find? (fun e => decide (e.1 = source))).map (fun e => e.2) =
    some r
  rw [List.find?_append]
  cases hf : idx.find? (fun e => decide (e.1 = source)) with
  | none => rw [hf] at h; exact absurd h (by simp)
  | some v =>
    rw [hf] at h
    exact h

theorem indexGet_record_new (idx : List (TransItem × Nat × Nat))
    (tgts tgts' : List TransItem) (source : TransItem) (pr : Nat × Nat)
    (h : InliningMap.indexGet ⟨idx, tgts⟩ source = none) :
    InliningMap.indexGet ⟨idx ++ [(source, pr)], tgts'⟩ source = some pr := by
  replace h : (idx.find? (fun e => decide (e.1 = source))).map (fun e => e.2) =
    none := h
  show ((idx ++ [(source, pr)]).find? (fun e => decide (e.1 = source))).map
    (fun e => e.2) = some pr
  rw [List.find?_append]
  cases hf : idx.find? (fun e => decide (e.1 = source)) with
  | some v => rw [hf] at h; exact absurd h (by simp)
  | none =>
    show (List.find? (fun e => decide (e.1 = source)) [(source, pr)]).map
      (fun e => e.2) = some pr
    simp [List.find?]

theorem slice_append_stable {α : Type} (l u : List α) (s e : Nat)
    (he : e ≤ l.length) :
    ((l ++ u).drop s).take (e - s) = (l.drop s).take (e - s) := by
  by_cases hs : s ≤ l.length
  · rw [List.drop_append_of_le_length hs]
    rw [List.take_append_of_le_length (by rw [List.length_drop]; omega)]
  · have h0 : e - s = 0 := by omega
    rw [h0]
    simp

theorem inv_recorded_update_depths (ctx : Ctx) (st : CState) (f : DefId → Nat) :
    inv_recorded ctx { st with recursion_depths := f } = inv_recorded ctx st := rfl

theorem recorded_ok_eq_false_err (ctx : Ctx) (st : CState) (x : TransItem)
    (err : CErr) (hne : neighbors_of ctx x = .error err) :
    recorded_ok ctx st x = false := by
  unfold recorded_ok
  rw [hne]

theorem recorded_ok_eq_false_none (ctx : Ctx) (st : CState) (x : TransItem)
    (nsx : List TransItem) (hne : neighbors_of ctx x = .ok nsx)
    (hg : st.inlining_map.indexGet x = none) :
    recorded_ok ctx st x = false := by
  unfold recorded_ok
  rw [hne, hg]

theorem recorded_ok_eq_ok (ctx : Ctx) (st : CState) (x : TransItem)
    (nsx : List TransItem) (s e : Nat)
    (hne : neighbors_of ctx x = .ok nsx)
    (hg : st.inlining_map.indexGet x = some (s, e)) :
    recorded_ok ctx st x =
      (decide (e ≤ st.inlining_map.targets.length) &&
       decide (e = s + (inlining_candidates ctx nsx).length) &&
       decide ((st.inlining_map.targets.drop s).take (e - s) =
         inlining_candidates ctx nsx)) := by
  unfold recorded_ok
  rw [hne, hg]

theorem inv_recorded_after_record (ctx : Ctx) (st : CState) (item : TransItem)
    (ns : List TransItem) (im : InliningMap) (f : DefId → Nat)
    (hinv : inv_recorded ctx st = true)
    (hne : neighbors_of ctx item = .ok ns)
    (hrc : record_inlining_canditates ctx item ns st.inlining_map = .ok im) :
    inv_recorded ctx ⟨st.visited ++ [item], f, im⟩ = true := by
  obtain ⟨hnone, him⟩ := record_inlining_canditates_ok ctx item ns st.inlining_map im hrc
  have htg : im.targets = st.inlining_map.targets ++ inlining_candidates ctx ns := by
    rw [him]
  have hstate : (⟨st.visited ++ [item], f, im⟩ : CState).inlining_map = im := rfl
  unfold inv_recorded at hinv ⊢
  rw [show (⟨st.visited ++ [item], f, im⟩ : CState).visited =
    st.visited ++ [item] from rfl]
  rw [List.all_append, Bool.and_eq_true]
  constructor
  · rw [List.all_eq_true]
    intro x hx
    have hro : recorded_ok ctx st x = true := List.all_eq_true.mp hinv x hx
    cases hxne : neighbors_of ctx x with
    | error err =>
      rw [recorded_ok_eq_false_err ctx st x err hxne] at hro
      exact absurd hro (by simp)
    | ok nsx =>
      cases hg : st.inlining_map.indexGet x with
      | none =>
        rw [recorded_ok_eq_false_none ctx st x nsx hxne hg] at hro
        exact absurd hro (by simp)
      | some pr =>
        obtain ⟨s, e⟩ := pr
        have hg' : (⟨st.visited ++ [item], f, im⟩ : CState).inlining_map.indexGet x =
            some (s, e) := by
          rw [hstate, him]
          exact indexGet_record_preserved _ _ _ _ x (s, e) hg
        rw [recorded_ok_eq_ok ctx st x nsx s e hxne hg] at hro
        rw [recorded_ok_eq_ok ctx ⟨st.visited ++ [item], f, im⟩ x nsx s e hxne hg']
        rw [hstate, htg]
        simp only [Bool.and_eq_true, decide_eq_true_eq] at hro ⊢
        obtain ⟨⟨h1, h2⟩, h3⟩ := hro
        refine ⟨⟨?_, h2⟩, ?_⟩
        · rw [List.length_append]
          omega
        · rw [slice_append_stable _ _ _ _ h1]
          exact h3
  · rw [List.all_eq_true]
    intro x hx
    rw [List.mem_singleton] at hx
    have hg' : (⟨st.visited ++ [item], f, im⟩ : CState).inlining_map.indexGet item =
        some (st.inlining_map.targets.length,
          st.inlining_map.targets.length + (inlining_candidates ctx ns).length) := by
      rw [hstate, him]
      exact indexGet_record_new _ _ _ _ _ hnone
    rw [hx, recorded_ok_eq_ok ctx ⟨st.visited ++ [item], f, im⟩ item ns _ _ hne hg']
    rw [hstate, htg]
    simp only [Bool.and_eq_true, decide_eq_true_eq]
    refine ⟨⟨?_, trivial⟩, ?_⟩
    · rw [List.length_append]
    · rw [List.drop_left, Nat.add_sub_cancel_left]
      exact List.take_length _

theorem collect_preserves_inv (ctx : Ctx) :
    ∀ (fuel : Nat) (item : TransItem) (st st' : CState),
      collect_items_rec ctx fuel item st = .ok st' →
      inv_recorded ctx st = true → inv_recorded ctx st' = true := by
  intro fuel
  induction fuel with
  | zero =>
    intro item st st' h _
    rw [collect_items_rec_zero] at h
    exact absurd h (fun hh => Except.noConfusion hh)
  | succ n ih =>
    intro item st st' h hinv
    rw [collect_items_rec_succ] at h
    by_cases hmem : item ∈ st.visited
    · rw [collect_body_visited ctx _ item st hmem] at h
      rw [← Except.ok.inj h]
      exact hinv
    · cases item with
      | staticItem node =>
        obtain ⟨ns, im, hne, hrc, hlist⟩ := collect_static_ok_elim ctx _ node st st' hmem h
        have hmid := inv_recorded_after_record ctx st (TransItem.staticItem node) ns im
          st.recursion_depths hinv hne hrc
        exact collect_items_list_pres (fun sA => inv_recorded ctx sA = true) _
          (fun it s s' hs hp => ih it s s' hs hp) _ _ _ hlist hmid
      | fn inst =>
        obtain ⟨rd, im, st2, hchk, hrc, hlist, hfin⟩ :=
          collect_fn_ok_elim ctx _ inst st st' hmem h
        have hmid := inv_recorded_after_record ctx st (TransItem.fn inst)
          (ctx.collect_neighbours inst) im rd.2 hinv rfl hrc
        have h2 := collect_items_list_pres (fun sA => inv_recorded ctx sA = true) _
          (fun it s s' hs hp => ih it s s' hs hp) _ _ _ hlist hmid
        rw [hfin, inv_recorded_update_depths]
        exact h2

/-! Claim theorems. -/

/-- Claim C4: for a virtual-dispatch shim or a parameterless drop-glue
shim, `visit_instance_use` pushes a `Fn` translation item exactly when
the use is not a direct call; a direct call contributes nothing. -/
theorem c4_shim_pushed_iff_indirect (ctx : Ctx) (inst : Instance)
    (is_direct_call : Bool) (output : List TransItem)
    (h : (∃ d i, inst.idef = InstanceDef.virtualItem d i) ∨
         (∃ d, inst.idef = InstanceDef.dropGlue d none)) :
    visit_instance_use ctx inst is_direct_call output =
      .ok (if is_direct_call then output else output ++ [create_fn_trans_item inst]) := by
  rcases h with ⟨d, i, h⟩ | ⟨d, h⟩ <;>
    cases is_direct_call <;>
      simp [visit_instance_use_eq, visit_instance_use_body, should_trans_locally, h,
        ok_bind]

/-- Witness for C4 at concrete inputs: a virtual shim referenced
indirectly is materialized, a parameterless drop-glue shim called
directly is not. -/
theorem c4_witness :
    visit_instance_use trivialCtx ⟨InstanceDef.virtualItem 3 0, []⟩ false [] =
      .ok [create_fn_trans_item ⟨InstanceDef.virtualItem 3 0, []⟩] ∧
    visit_instance_use trivialCtx ⟨InstanceDef.dropGlue 4 none, []⟩ true [] = .ok [] := by
  constructor
  · have h := c4_shim_pushed_iff_indirect trivialCtx ⟨InstanceDef.virtualItem 3 0, []⟩
      false [] (Or.inl ⟨3, 0, rfl⟩)
    simpa using h
  · have h := c4_shim_pushed_iff_indirect trivialCtx ⟨InstanceDef.dropGlue 4 none, []⟩
      true [] (Or.inr ⟨4, rfl⟩)
    simpa using h

/-- Claim C9: an intrinsic instance reified outside a direct call is an
internal-compiler error (`bug!`), and an intrinsic used as a direct call
contributes no translation item; in particular no error can arise when
intrinsics only appear in direct-call position. -/
theorem c9_intrinsic_reified_is_bug (ctx : Ctx) (inst : Instance)
    (output : List TransItem) (d : DefId)
    (h : inst.idef = InstanceDef.intrinsic d) :
    visit_instance_use ctx inst false output = .error CErr.bug ∧
    visit_instance_use ctx inst true output = .ok output := by
  constructor <;>
    simp [visit_instance_use_eq, visit_instance_use_body, should_trans_locally, h,
      ok_bind]

/-- Witness for C9 at a concrete intrinsic instance. -/
theorem c9_witness :
    visit_instance_use trivialCtx ⟨InstanceDef.intrinsic 6, []⟩ false [] =
      .error CErr.bug ∧
    visit_instance_use trivialCtx ⟨InstanceDef.intrinsic 6, []⟩ true [] = .ok [] := by
  have h := c9_intrinsic_reified_is_bug trivialCtx ⟨InstanceDef.intrinsic 6, []⟩ [] 6 rfl
  exact h

/-- Claim C10: querying the inlining map for an unrecorded source invokes
the callback zero times and does not fail; for a recorded source it
invokes the callback exactly once per recorded target, in append
order. -/
theorem c10_with_inlining_candidates_spec :
    (∀ (m : InliningMap) (source : TransItem),
       m.indexGet source = none → m.with_inlining_candidates source = []) ∧
    (∀ (m m' : InliningMap) (source : TransItem) (ts : List TransItem),
       m.record_inlining_canditates source ts = .ok m' →
       m'.with_inlining_candidates source = ts) := by
  constructor
  · intro m source h
    simp [InliningMap.with_inlining_candidates, h]
  · intro m m' source ts h
    unfold InliningMap.record_inlining_canditates at h
    by_cases hs : (m.indexGet source).isSome
    · simp [hs] at h
    · simp [hs] at h
      have hfind : m.index.find? (fun e => decide (e.1 = source)) = none := by
        unfold InliningMap.indexGet at hs
        cases hf : m.index.find? (fun e => decide (e.1 = source)) with
        | none => rfl
        | some v => rw [hf] at hs; simp at hs
      have hidx : m'.indexGet source =
          some (m.targets.length, m.targets.length + ts.length) := by
        rw [← h]
        unfold InliningMap.indexGet
        rw [List.find?_append, hfind]
        simp
      unfold InliningMap.with_inlining_candidates
      rw [hidx, ← h]
      simp [List.drop_left]

/-- Witness for C10 at a concrete map: an unrecorded source yields
nothing, recording then querying yields the recorded targets. -/
theorem c10_witness :
    (InliningMap.new.with_inlining_candidates (TransItem.staticItem 0) = []) ∧
    ((InliningMap.new.record_inlining_canditates (TransItem.staticItem 0)
        [TransItem.fn (Instance.mono 1)]).toOption.map
      (fun m => m.with_inlining_candidates (TransItem.staticItem 0)) =
      some [TransItem.fn (Instance.mono 1)]) := by
  constructor
  · exact c10_with_inlining_candidates_spec.1 InliningMap.new (TransItem.staticItem 0) rfl
  · have h := c10_with_inlining_candidates_spec.2 InliningMap.new
      ⟨[(TransItem.staticItem 0, (0, 1))], [TransItem.fn (Instance.mono 1)]⟩
      (TransItem.staticItem 0) [TransItem.fn (Instance.mono 1)] rfl
    rw [show (InliningMap.new.record_inlining_canditates (TransItem.staticItem 0)
        [TransItem.fn (Instance.mono 1)]) =
        Except.ok (⟨[(TransItem.staticItem 0, (0, 1))],
          [TransItem.fn (Instance.mono 1)]⟩ : InliningMap) from rfl]
    simp only [Except.toOption, Option.map]
    exact congrArg some h

/-- Counterexample to claim C3's final clause: in the §8 linkage scenario
(external definition, not exported, not foreign, MIR unavailable),
`should_trans_locally` does not return `false` ("no local translation
item"); it signals the internal-compiler error `bug!("Cannot create
local trans-item ...")`. -/
theorem c3_counterexample :
    should_trans_locally linkageScenarioCtx (Instance.mono 0) = .error CErr.bug ∧
    should_trans_locally linkageScenarioCtx (Instance.mono 0) ≠ .ok false := by
  refine ⟨rfl, ?_⟩
  intro h
  rw [(rfl : should_trans_locally linkageScenarioCtx (Instance.mono 0) =
    .error CErr.bug)] at h
  exact Except.noConfusion h

/-- Counterexample to claim C2: with the recursion limit configured to 8,
after exactly 8 nested instantiations of the same definition — and even
after a 9th — no fatal diagnostic has been emitted; `check_recursion_limit`
does not signal when the number of active expansions merely reaches the
configured limit. -/
theorem c2_counterexample :
    (check_rec_nested limit8Ctx (Instance.mono 5) 8 (fun _ => 0)).toOption.map
        (fun f => f 5) = some 8 ∧
    (check_rec_nested limit8Ctx (Instance.mono 5) 9 (fun _ => 0)).toOption.map
        (fun f => f 5) = some 9 := by
  constructor <;> rfl

/-- Claim C2 as amended: for a definition other than `drop_in_place`,
`check_recursion_limit` signals the recursion-limit fatal precisely when
the stored count of active expansions strictly exceeds the configured
limit; consequently, starting from depth zero, `limit + 1` nested
instantiations all pass (leaving the stored depth at `limit + 1`) and
the `limit + 2`-nd nested attempt is the one that fails fatally. -/
theorem c2_amended_recursion_guard (ctx : Ctx) (inst : Instance)
    (hnd : some inst.idef.def_id ≠ ctx.drop_in_place_fn) :
    (∀ depths : DefId → Nat,
       (∃ e, check_recursion_limit ctx inst depths = .error e) ↔
         ctx.recursion_limit < depths inst.idef.def_id) ∧
    (check_rec_nested ctx inst (ctx.recursion_limit + 1) (fun _ => 0)).toOption.map
        (fun f => f inst.idef.def_id) = some (ctx.recursion_limit + 1) ∧
    check_rec_nested ctx inst (ctx.recursion_limit + 2) (fun _ => 0) =
      .error (.recursionLimit inst.idef.def_id
        (ctx.as_local_node_id inst.idef.def_id).isSome) := by
  refine ⟨?_, ?_, ?_⟩
  · intro depths
    constructor
    · rintro ⟨e, he⟩
      by_contra hnot
      rw [check_recursion_limit_ok_nondrop ctx inst depths hnd
        (Nat.not_lt.mp hnot)] at he
      exact Except.noConfusion he
    · intro hlt
      refine ⟨.recursionLimit inst.idef.def_id
        (ctx.as_local_node_id inst.idef.def_id).isSome, ?_⟩
      simp only [check_recursion_limit, if_neg hnd]
      rw [if_pos hlt]
  · obtain ⟨f, hf, hval⟩ := check_rec_nested_ok ctx inst hnd
      (ctx.recursion_limit + 1) (fun _ => 0) (by simp)
    rw [hf]
    simp only [Except.toOption, Option.map]
    rw [hval, Nat.zero_add]
  · rw [show ctx.recursion_limit + 2 = ctx.recursion_limit + 1 + 1 from rfl,
      check_rec_nested_add ctx inst (ctx.recursion_limit + 1) 1 (fun _ => 0)]
    obtain ⟨f, hf, hval⟩ := check_rec_nested_ok ctx inst hnd
      (ctx.recursion_limit + 1) (fun _ => 0) (by simp)
    rw [hf]
    have herr : check_recursion_limit ctx inst f =
        .error (.recursionLimit inst.idef.def_id
          (ctx.as_local_node_id inst.idef.def_id).isSome) := by
      simp only [check_recursion_limit, if_neg hnd]
      rw [if_pos (by omega : f inst.idef.def_id > ctx.recursion_limit)]
    show check_rec_nested ctx inst 1 f =
      Except.error (.recursionLimit inst.idef.def_id
        (ctx.as_local_node_id inst.idef.def_id).isSome)
    rw [show (1 : Nat) = 0 + 1 from rfl, check_rec_nested_succ, herr]

/-- Witness for C2's amended theorem at limit 8: a depth of 9 trips the
guard, and 10 nested instantiations from depth zero produce the fatal. -/
theorem c2_witness :
    (∃ e, check_recursion_limit limit8Ctx (Instance.mono 5) (fun _ => 9) = .error e) ∧
    check_rec_nested limit8Ctx (Instance.mono 5) 10 (fun _ => 0) =
      .error (.recursionLimit 5 false) := by
  have h := c2_amended_recursion_guard limit8Ctx (Instance.mono 5)
    (by intro hc; exact Option.noConfusion hc)
  exact ⟨(h.1 (fun _ => 9)).mpr (by decide), h.2.2⟩

/-- Claim C5: before expanding a `Fn` item — and only a `Fn` item —
the collector measures the total `walk` count over all substituted type
arguments; strictly exceeding the configured type-length limit is a
fatal error carrying the instance name truncated to 64 characters and
the suggestion to double the limit, and the fatal fires before any
neighbor of the item is expanded, while a `Static` item is expanded with
no such check. -/
theorem c5_type_length_limit_gate :
    (∀ (ctx : Ctx) (inst : Instance),
       check_type_length_limit ctx inst = .ok () ↔
         (inst.substs.map ty_walk_count).sum ≤ ctx.type_length_limit) ∧
    (∀ (ctx : Ctx) (inst : Instance),
       ctx.type_length_limit < (inst.substs.map ty_walk_count).sum →
       check_type_length_limit ctx inst =
         .error (.typeLength ((ctx.instance_to_string inst).take 64)
           (ctx.type_length_limit * 2)
           (ctx.as_local_node_id inst.idef.def_id).isSome)) ∧
    (∀ (ctx : Ctx) (inst : Instance) (st : CState) (fuel : Nat),
       TransItem.fn inst ∉ st.visited →
       some inst.idef.def_id ≠ ctx.drop_in_place_fn →
       st.recursion_depths inst.idef.def_id ≤ ctx.recursion_limit →
       ctx.type_length_limit < (inst.substs.map ty_walk_count).sum →
       collect_items_rec ctx (fuel + 1) (TransItem.fn inst) st =
         .error (.typeLength ((ctx.instance_to_string inst).take 64)
           (ctx.type_length_limit * 2)
           (ctx.as_local_node_id inst.idef.def_id).isSome)) ∧
    (∀ (ctx : Ctx) (node : NodeId) (st : CState) (fuel : Nat),
       TransItem.staticItem node ∉ st.visited →
       neighbors_of ctx (TransItem.staticItem node) = .ok [] →
       st.inlining_map.indexGet (TransItem.staticItem node) = none →
       ∃ st', collect_items_rec ctx (fuel + 1) (TransItem.staticItem node) st =
         .ok st') := by
  refine ⟨?_, ?_, ?_, ?_⟩
  · intro ctx inst
    unfold check_type_length_limit
    by_cases h : (inst.substs.map ty_walk_count).sum > ctx.type_length_limit
    · rw [if_pos h]
      constructor
      · intro hc; exact absurd hc (by simp)
      · intro hc; omega
    · rw [if_neg h]
      constructor
      · intro _; omega
      · intro _; rfl
  · intro ctx inst h
    unfold check_type_length_limit
    rw [if_pos (by omega : (inst.substs.map ty_walk_count).sum > ctx.type_length_limit)]
  · intro ctx inst st fuel hmem hnd hdep hlen
    have htl : check_type_length_limit ctx inst =
        .error (.typeLength ((ctx.instance_to_string inst).take 64)
          (ctx.type_length_limit * 2)
          (ctx.as_local_node_id inst.idef.def_id).isSome) := by
      unfold check_type_length_limit
      rw [if_pos (by omega : (inst.substs.map ty_walk_count).sum > ctx.type_length_limit)]
    rw [collect_items_rec_succ, collect_body_fn ctx (collect_items_rec ctx fuel) inst st hmem,
      check_recursion_limit_ok_nondrop ctx inst st.recursion_depths hnd hdep, ok_bind,
      htl, error_bind]
  · intro ctx node st fuel hmem hne hidx
    have hso : (st.inlining_map.indexGet (TransItem.staticItem node)).isSome = false := by
      rw [hidx]
      rfl
    have hrec : record_inlining_canditates ctx (TransItem.staticItem node) []
        st.inlining_map =
        .ok ⟨st.inlining_map.index ++ [(TransItem.staticItem node,
             (st.inlining_map.targets.length,
              st.inlining_map.targets.length + (inlining_candidates ctx []).length))],
             st.inlining_map.targets ++ inlining_candidates ctx []⟩ := by
      unfold record_inlining_canditates InliningMap.record_inlining_canditates
      rw [hso, if_neg Bool.false_ne_true]
    have hcomp : collect_items_rec ctx (fuel + 1) (TransItem.staticItem node) st =
        .ok { visited := st.visited ++ [TransItem.staticItem node],
              recursion_depths := st.recursion_depths,
              inlining_map := ⟨st.inlining_map.index ++ [(TransItem.staticItem node,
                (st.inlining_map.targets.length,
                 st.inlining_map.targets.length + (inlining_candidates ctx []).length))],
                st.inlining_map.targets ++ inlining_candidates ctx []⟩ } := by
      rw [collect_items_rec_succ,
        collect_body_static ctx (collect_items_rec ctx fuel) node st hmem, hne]
      show (record_inlining_canditates ctx (TransItem.staticItem node) []
          st.inlining_map >>=
        fun im => collect_items_list (collect_items_rec ctx fuel) []
          { visited := st.visited ++ [TransItem.staticItem node],
            recursion_depths := st.recursion_depths, inlining_map := im }) = _
      rw [hrec]
      rfl
    exact ⟨_, hcomp⟩

/-- Witness for C5: a function instance with a three-node substituted
type argument against a limit of 2 fails fatally with the truncated name
and the doubled-limit hint, while a static item with the same session
limits is collected without any type-length check. -/
theorem c5_witness :
    collect_items_rec shortTypeCtx 1 (TransItem.fn longTypeInst) emptyState =
      .error (.typeLength (("f").take 64) 4 false) ∧
    ∃ st', collect_items_rec shortTypeCtx 1 (TransItem.staticItem 0) emptyState =
      .ok st' := by
  constructor
  · have h := (c5_type_length_limit_gate.2.2.1) shortTypeCtx longTypeInst emptyState 0
      (by decide) (by intro hc; exact Option.noConfusion hc) (by decide) (by decide)
    exact h
  · exact (c5_type_length_limit_gate.2.2.2) shortTypeCtx 0 emptyState 0
      (by decide) rfl rfl

/-- Claim C1: for an unsizing coercion whose resolved vtable pair has a
trait-object target (with a principal trait) and a non-trait source,
every object-safe vtable method (the supertrait-closed method list)
that resolves against the concrete type and is accepted by
`should_trans_locally` appears as a `Fn` translation item in the
neighbor list, and the drop-glue item of the concrete type appears as
well — independent of any call sites. -/
theorem c1_vtable_methods_and_drop (ctx : Ctx) (source_ty target_ty : Ty)
    (output out' : List TransItem) (s : Ty) (p : Nat) (dd : DefId) (oty : Option Ty)
    (hfind : find_vtable_types_for_unsizing ctx source_ty target_ty =
      .ok (s, Ty.dynamic (some p)))
    (hs : s.is_trait = false)
    (hdrop : (ctx.resolve_drop_in_place s).idef = InstanceDef.dropGlue dd oty)
    (hrun : visit_rvalue_unsize ctx source_ty target_ty output = .ok out') :
    (∀ (d : DefId) (ss : List Ty),
       (d, ss) ∈ (ctx.vtable_methods p s).filterMap id →
       should_trans_locally ctx (ctx.resolve d ss) = .ok true →
       create_fn_trans_item (ctx.resolve d ss) ∈ out') ∧
    create_fn_trans_item (ctx.resolve_drop_in_place s) ∈ out' := by
  rw [visit_rvalue_unsize_eq ctx source_ty target_ty output s (Ty.dynamic (some p))
    hfind] at hrun
  have hcond : ((Ty.dynamic (some p)).is_trait && !s.is_trait) = true := by
    rw [hs]
    simp [Ty.is_trait]
  rw [if_pos hcond] at hrun
  by_cases hns : s.needs_subst = true
  · unfold create_trans_items_for_vtable_methods at hrun
    rw [if_pos (by simp [Ty.needs_subst, hns] :
      ((Ty.dynamic (some p)).needs_subst || s.needs_subst) = true)] at hrun
    exact Except.noConfusion hrun
  · rw [Bool.not_eq_true] at hns
    rw [create_trans_items_for_vtable_methods_dynamic ctx s p output hns] at hrun
    cases hkept : filterE (should_trans_locally ctx)
        (((ctx.vtable_methods p s).filterMap id).map (fun m => ctx.resolve m.1 m.2)) with
    | error e =>
      rw [hkept, error_bind] at hrun
      exact Except.noConfusion hrun
    | ok kept =>
      rw [hkept, ok_bind] at hrun
      replace hrun : visit_drop_use ctx s false
          (output ++ kept.map create_fn_trans_item) = Except.ok out' := hrun
      rw [visit_drop_use_dropglue ctx s _ dd oty hdrop] at hrun
      have hout := Except.ok.inj hrun
      constructor
      · intro d ss hmem hstl
        have h1 : ctx.resolve d ss ∈
            ((ctx.vtable_methods p s).filterMap id).map (fun m => ctx.resolve m.1 m.2) :=
          List.mem_map_of_mem _ hmem
        have h2 := filterE_mem (should_trans_locally ctx) _ _ hkept _ h1 hstl
        rw [← hout]
        exact List.mem_append_left _
          (List.mem_append_right _ (List.mem_map_of_mem _ h2))
      · rw [← hout]
        exact List.mem_append_right _ (List.mem_singleton.mpr rfl)

/-- Witness for C1: coercing `&u8` to `&Trait5` where trait 5 has
object-safe methods 11 and 12 (one non-object-safe slot skipped) puts
`Fn` items for both resolved methods and the concrete type's drop glue
into the neighbor list. -/
theorem c1_witness :
    ((11, ([] : List Ty)) ∈ (vtableCtx.vtable_methods 5 (Ty.scalar 0)).filterMap id) ∧
    create_fn_trans_item (vtableCtx.resolve 11 []) ∈
      [TransItem.fn ⟨InstanceDef.item 11, []⟩, TransItem.fn ⟨InstanceDef.item 12, []⟩,
       TransItem.fn ⟨InstanceDef.dropGlue 99 none, []⟩] ∧
    create_fn_trans_item (vtableCtx.resolve 12 []) ∈
      [TransItem.fn ⟨InstanceDef.item 11, []⟩, TransItem.fn ⟨InstanceDef.item 12, []⟩,
       TransItem.fn ⟨InstanceDef.dropGlue 99 none, []⟩] ∧
    create_fn_trans_item (vtableCtx.resolve_drop_in_place (Ty.scalar 0)) ∈
      [TransItem.fn ⟨InstanceDef.item 11, []⟩, TransItem.fn ⟨InstanceDef.item 12, []⟩,
       TransItem.fn ⟨InstanceDef.dropGlue 99 none, []⟩] := by
  have h := c1_vtable_methods_and_drop vtableCtx (Ty.ref (Ty.scalar 0))
    (Ty.ref (Ty.dynamic (some 5))) []
    [TransItem.fn ⟨InstanceDef.item 11, []⟩, TransItem.fn ⟨InstanceDef.item 12, []⟩,
     TransItem.fn ⟨InstanceDef.dropGlue 99 none, []⟩]
    (Ty.scalar 0) 5 99 none rfl rfl rfl rfl
  exact ⟨by decide, h.1 11 [] (by decide) rfl, h.1 12 [] (by decide) rfl, h.2⟩

/-- Counterexample to claim C6: when the expanded definition is
`drop_in_place` (stored depth divided by 4 by the recursion guard), the
depth is not restored to its pre-entry value on leaving the expansion:
entering with stored depth 5 and expanding an item with no neighbors
leaves the stored depth at 1 (= 5 / 4), not 5. -/
theorem c6_counterexample :
    (collect_items_rec dropCtx 2 (TransItem.fn dropInst) depth5State).toOption.map
      (fun sA => sA.recursion_depths 7) = some 1 ∧
    depth5State.recursion_depths 7 = 5 := by
  constructor <;> rfl

/-- Claim C6 as amended: for a definition other than `drop_in_place`,
`check_recursion_limit` stores exactly depth + 1 and returns the exact
pre-entry depth as the reset value, and a completed `collect_items_rec`
expansion leaves the stored depth of every non-`drop_in_place`
definition exactly as it was; for `drop_in_place` itself the stored
depth during the expansion is `pre / 4 + 1` and the reset value is
`pre / 4`, so the pre-entry value is lost whenever it was not a
multiple of 4 (and decays in general). -/
theorem c6_amended_depth_scoping :
    (∀ (ctx : Ctx) (inst : Instance) (depths : DefId → Nat)
       (pair : DefId × Nat) (depths' : DefId → Nat),
       some inst.idef.def_id ≠ ctx.drop_in_place_fn →
       check_recursion_limit ctx inst depths = .ok (pair, depths') →
       depths' inst.idef.def_id = depths inst.idef.def_id + 1 ∧
         pair = (inst.idef.def_id, depths inst.idef.def_id)) ∧
    (∀ (ctx : Ctx) (inst : Instance) (depths : DefId → Nat)
       (pair : DefId × Nat) (depths' : DefId → Nat),
       some inst.idef.def_id = ctx.drop_in_place_fn →
       check_recursion_limit ctx inst depths = .ok (pair, depths') →
       depths' inst.idef.def_id = depths inst.idef.def_id / 4 + 1 ∧
         pair = (inst.idef.def_id, depths inst.idef.def_id / 4)) ∧
    (∀ (ctx : Ctx) (D : DefId), some D ≠ ctx.drop_in_place_fn →
       ∀ (fuel : Nat) (item : TransItem) (st st' : CState),
         collect_items_rec ctx fuel item st = .ok st' →
         st'.recursion_depths D = st.recursion_depths D) := by
  refine ⟨?_, ?_, ?_⟩
  · intro ctx inst depths pair depths' hnd h
    obtain ⟨hd1, hd2, hd3⟩ :=
      check_recursion_limit_ok_elim ctx inst depths (pair, depths') h
    have hd1' : pair.1 = inst.idef.def_id := hd1
    have hd2' : pair.2 = (if some inst.idef.def_id = ctx.drop_in_place_fn
      then depths inst.idef.def_id / 4 else depths inst.idef.def_id) := hd2
    have hd3' : depths' = updateMap depths inst.idef.def_id (pair.2 + 1) := hd3
    rw [if_neg hnd] at hd2'
    constructor
    · rw [hd3']
      simp [updateMap, hd2']
    · rw [show pair = (pair.1, pair.2) from rfl, hd1', hd2']
  · intro ctx inst depths pair depths' hd h
    obtain ⟨hd1, hd2, hd3⟩ :=
      check_recursion_limit_ok_elim ctx inst depths (pair, depths') h
    have hd1' : pair.1 = inst.idef.def_id := hd1
    have hd2' : pair.2 = (if some inst.idef.def_id = ctx.drop_in_place_fn
      then depths inst.idef.def_id / 4 else depths inst.idef.def_id) := hd2
    have hd3' : depths' = updateMap depths inst.idef.def_id (pair.2 + 1) := hd3
    rw [if_pos hd] at hd2'
    constructor
    · rw [hd3']
      simp [updateMap, hd2']
    · rw [show pair = (pair.1, pair.2) from rfl, hd1', hd2']
  · exact fun ctx D hD => collect_preserves_depths ctx D hD

/-- Witness for C6's amended theorem: a non-drop definition at depth 2
is stored at 3 and reset to 2; the drop-in-place definition at depth 5
is stored at 2 and reset to 1; a completed expansion leaves unrelated
definitions' depths untouched. -/
theorem c6_witness :
    (updateMap (fun _ => (2 : Nat)) 3 3 3 = 2 + 1 ∧
      ((3 : DefId), (2 : Nat)) = (3, 2)) ∧
    ((updateMap (fun d => if d = 7 then (5 : Nat) else 0) 7 2) 7 = 5 / 4 + 1 ∧
      ((7 : DefId), (1 : Nat)) = (7, 5 / 4)) ∧
    (collect_items_rec trivialCtx 2 (TransItem.fn (Instance.mono 4))
        emptyState).toOption.map (fun sA => sA.recursion_depths 9) = some 0 := by
  refine ⟨?_, ?_, ?_⟩
  · have h := c6_amended_depth_scoping.1 trivialCtx (Instance.mono 3) (fun _ => 2)
      (3, 2) (updateMap (fun _ => 2) 3 3)
      (by intro hc; exact Option.noConfusion hc) rfl
    exact h
  · have h := c6_amended_depth_scoping.2.1 dropCtx dropInst
      (fun d => if d = 7 then 5 else 0) (7, 1)
      (updateMap (fun d => if d = 7 then 5 else 0) 7 2) rfl rfl
    exact h
  · obtain ⟨st', hst'⟩ : ∃ st', collect_items_rec trivialCtx 2
        (TransItem.fn (Instance.mono 4)) emptyState = .ok st' := ⟨_, rfl⟩
    have h3 := c6_amended_depth_scoping.2.2 trivialCtx 9
      (by intro hc; exact Option.noConfusion hc) 2 _ emptyState st' hst'
    rw [hst']
    simp only [Except.toOption, Option.map]
    rw [h3]
    rfl

/-- Claim C7: re-recording an already-recorded source in the inlining
map is an assertion failure, and along any completed collection run the
invariant is preserved that every visited item has been recorded exactly
once, with a contiguous range of the target sequence holding exactly the
`LocalCopy`-mode subset of that item's neighbor list (recording happens
with the item's full neighbor list, before its neighbors are
expanded). -/
theorem c7_record_once_exact :
    (∀ (m : InliningMap) (source : TransItem) (ts : List TransItem) (r : Nat × Nat),
       m.indexGet source = some r →
       m.record_inlining_canditates source ts = .error CErr.assertionFailure) ∧
    (∀ (ctx : Ctx) (fuel : Nat) (item : TransItem) (st st' : CState),
       collect_items_rec ctx fuel item st = .ok st' →
       inv_recorded ctx st = true → inv_recorded ctx st' = true) := by
  constructor
  · intro m source ts r h
    unfold InliningMap.record_inlining_canditates
    rw [show (m.indexGet source).isSome = true from by rw [h]; rfl]
    rw [if_pos rfl]
  · exact fun ctx fuel item st st' h hinv =>
      collect_preserves_inv ctx fuel item st st' h hinv

/-- Witness for C7: recording into a map that already holds the source
asserts, and a concrete run from the empty state ends in a state where
every visited item is recorded correctly. -/
theorem c7_witness :
    (InliningMap.record_inlining_canditates
        ⟨[(TransItem.staticItem 0, (0, 0))], []⟩ (TransItem.staticItem 0) [] =
      .error CErr.assertionFailure) ∧
    ∃ st', collect_items_rec trivialCtx 2 (TransItem.fn (Instance.mono 0))
        emptyState = .ok st' ∧ inv_recorded trivialCtx st' = true := by
  constructor
  · exact c7_record_once_exact.1 ⟨[(TransItem.staticItem 0, (0, 0))], []⟩
      (TransItem.staticItem 0) [] (0, 0) rfl
  · obtain ⟨st', hst'⟩ : ∃ st', collect_items_rec trivialCtx 2
        (TransItem.fn (Instance.mono 0)) emptyState = .ok st' := ⟨_, rfl⟩
    exact ⟨st', hst',
      c7_record_once_exact.2 trivialCtx 2 _ emptyState st' hst' (by decide)⟩

/-- Claim C8: a second invocation of `collect_items_rec` on an item
already in the visited set returns immediately with the state unchanged
(no neighbors collected, no inlining-map update), and a self-recursive
item — one whose body references exactly itself — is expanded once and
appears exactly once in the visited set, the traversal terminating on
the cycle. -/
theorem c8_visited_memoization :
    (∀ (ctx : Ctx) (fuel : Nat) (item : TransItem) (st : CState),
       item ∈ st.visited → collect_items_rec ctx (fuel + 1) item st = .ok st) ∧
    (∀ (ctx : Ctx) (inst : Instance) (st : CState),
       ctx.collect_neighbours inst = [TransItem.fn inst] →
       TransItem.fn inst ∉ st.visited →
       st.inlining_map.indexGet (TransItem.fn inst) = none →
       (if some inst.idef.def_id = ctx.drop_in_place_fn
        then st.recursion_depths inst.idef.def_id / 4
        else st.recursion_depths inst.idef.def_id) ≤ ctx.recursion_limit →
       (inst.substs.map ty_walk_count).sum ≤ ctx.type_length_limit →
       ∃ st', collect_items_rec ctx 2 (TransItem.fn inst) st = .ok st' ∧
         st'.visited = st.visited ++ [TransItem.fn inst] ∧
         st'.visited.count (TransItem.fn inst) = 1) := by
  constructor
  · intro ctx fuel item st hmem
    rw [collect_items_rec_succ]
    exact collect_body_visited ctx _ item st hmem
  · intro ctx inst st hself hmem hidx hdep hlen
    have htl : check_type_length_limit ctx inst = .ok () := by
      unfold check_type_length_limit
      rw [if_neg (by omega :
        ¬ (inst.substs.map ty_walk_count).sum > ctx.type_length_limit)]
    have hne : neighbors_of ctx (TransItem.fn inst) = .ok [TransItem.fn inst] := by
      rw [show neighbors_of ctx (TransItem.fn inst) =
        Except.ok (ctx.collect_neighbours inst) from rfl, hself]
    have hso : (st.inlining_map.indexGet (TransItem.fn inst)).isSome = false := by
      rw [hidx]
      rfl
    have hrec : record_inlining_canditates ctx (TransItem.fn inst)
        [TransItem.fn inst] st.inlining_map =
        .ok ⟨st.inlining_map.index ++ [(TransItem.fn inst,
             (st.inlining_map.targets.length,
              st.inlining_map.targets.length +
                (inlining_candidates ctx [TransItem.fn inst]).length))],
             st.inlining_map.targets ++
               inlining_candidates ctx [TransItem.fn inst]⟩ := by
      unfold record_inlining_canditates InliningMap.record_inlining_canditates
      rw [hso, if_neg Bool.false_ne_true]
    have hmem1 : TransItem.fn inst ∈ st.visited ++ [TransItem.fn inst] :=
      List.mem_append_right _ (List.mem_singleton.mpr rfl)
    have hchk := check_recursion_limit_ok_of_le ctx inst st.recursion_depths hdep
    have hstep : ∀ S1 : CState, TransItem.fn inst ∈ S1.visited →
        collect_items_list (collect_items_rec ctx 1) [TransItem.fn inst] S1 =
          .ok S1 := by
      intro S1 hS
      rw [show collect_items_list (collect_items_rec ctx 1) [TransItem.fn inst] S1 =
        (collect_items_rec ctx 1 (TransItem.fn inst) S1 >>=
          fun s => collect_items_list (collect_items_rec ctx 1) [] s) from rfl]
      rw [show (1 : Nat) = 0 + 1 from rfl, collect_items_rec_succ,
        collect_body_visited ctx _ _ _ hS, ok_bind]
      rfl
    have hrun : collect_items_rec ctx 2 (TransItem.fn inst) st =
        .ok { visited := st.visited ++ [TransItem.fn inst],
              recursion_depths := updateMap
                (updateMap st.recursion_depths inst.idef.def_id
                  ((if some inst.idef.def_id = ctx.drop_in_place_fn
                    then st.recursion_depths inst.idef.def_id / 4
                    else st.recursion_depths inst.idef.def_id) + 1))
                inst.idef.def_id
                (if some inst.idef.def_id = ctx.drop_in_place_fn
                 then st.recursion_depths inst.idef.def_id / 4
                 else st.recursion_depths inst.idef.def_id),
              inlining_map := ⟨st.inlining_map.index ++ [(TransItem.fn inst,
                (st.inlining_map.targets.length,
                 st.inlining_map.targets.length +
                   (inlining_candidates ctx [TransItem.fn inst]).length))],
                st.inlining_map.targets ++
                  inlining_candidates ctx [TransItem.fn inst]⟩ } := by
      rw [show (2 : Nat) = 1 + 1 from rfl, collect_items_rec_succ,
        collect_body_fn ctx (collect_items_rec ctx 1) inst st hmem, hchk, ok_bind]
      show (do
        let _ ← check_type_length_limit ctx inst
        let neighbors ← neighbors_of ctx (TransItem.fn inst)
        let im ← record_inlining_canditates ctx (TransItem.fn inst) neighbors
          st.inlining_map
        let st2 ← collect_items_list (collect_items_rec ctx 1) neighbors
          { visited := st.visited ++ [TransItem.fn inst],
            recursion_depths := updateMap st.recursion_depths inst.idef.def_id
              ((if some inst.idef.def_id = ctx.drop_in_place_fn
                then st.recursion_depths inst.idef.def_id / 4
                else st.recursion_depths inst.idef.def_id) + 1),
            inlining_map := im }
        Except.ok { st2 with recursion_depths := (updateMap st2.recursion_depths
          inst.idef.def_id
          (if some inst.idef.def_id = ctx.drop_in_place_fn
           then st.recursion_depths inst.idef.def_id / 4
           else st.recursion_depths inst.idef.def_id)) }) = _
      rw [htl, ok_bind, hne, ok_bind]
      show (do
        let im ← record_inlining_canditates ctx (TransItem.fn inst)
          [TransItem.fn inst] st.inlining_map
        let st2 ← collect_items_list (collect_items_rec ctx 1) [TransItem.fn inst]
          { visited := st.visited ++ [TransItem.fn inst],
            recursion_depths := updateMap st.recursion_depths inst.idef.def_id
              ((if some inst.idef.def_id = ctx.drop_in_place_fn
                then st.recursion_depths inst.idef.def_id / 4
                else st.recursion_depths inst.idef.def_id) + 1),
            inlining_map := im }
        Except.ok { st2 with recursion_depths := (updateMap st2.recursion_depths
          inst.idef.def_id
          (if some inst.idef.def_id = ctx.drop_in_place_fn
           then st.recursion_depths inst.idef.def_id / 4
           else st.recursion_depths inst.idef.def_id)) }) = _
      rw [hrec, ok_bind]
      show (do
        let st2 ← collect_items_list (collect_items_rec ctx 1) [TransItem.fn inst]
          { visited := st.visited ++ [TransItem.fn inst],
            recursion_depths := updateMap st.recursion_depths inst.idef.def_id
              ((if some inst.idef.def_id = ctx.drop_in_place_fn
                then st.recursion_depths inst.idef.def_id / 4
                else st.recursion_depths inst.idef.def_id) + 1),
            inlining_map := ⟨st.inlining_map.index ++ [(TransItem.fn inst,
              (st.inlining_map.targets.length,
               st.inlining_map.targets.length +
                 (inlining_candidates ctx [TransItem.fn inst]).length))],
              st.inlining_map.targets ++
                inlining_candidates ctx [TransItem.fn inst]⟩ }
        Except.ok { st2 with recursion_depths := (updateMap st2.recursion_depths
          inst.idef.def_id
          (if some inst.idef.def_id = ctx.drop_in_place_fn
           then st.recursion_depths inst.idef.def_id / 4
           else st.recursion_depths inst.idef.def_id)) }) = _
      rw [hstep _ hmem1, ok_bind]
    refine ⟨_, hrun, rfl, ?_⟩
    show (st.visited ++ [TransItem.fn inst]).count (TransItem.fn inst) = 1
    rw [List.count_append, List.count_eq_zero.mpr hmem]
    simp

/-- Witness for C8: an already-visited item is a no-op for the
collector, and a concrete self-referential function instance is visited
exactly once, with the traversal terminating. -/
theorem c8_witness :
    collect_items_rec trivialCtx 1 (TransItem.staticItem 9)
      ⟨[TransItem.staticItem 9], fun _ => 0, InliningMap.new⟩ =
      .ok ⟨[TransItem.staticItem 9], fun _ => 0, InliningMap.new⟩ ∧
    ∃ st', collect_items_rec selfLoopCtx 2 (TransItem.fn (Instance.mono 0))
        emptyState = .ok st' ∧
      st'.visited = emptyState.visited ++ [TransItem.fn (Instance.mono 0)] ∧
      st'.visited.count (TransItem.fn (Instance.mono 0)) = 1 := by
  constructor
  · exact c8_visited_memoization.1 trivialCtx 0 (TransItem.staticItem 9)
      ⟨[TransItem.staticItem 9], fun _ => 0, InliningMap.new⟩
      (List.mem_singleton.mpr rfl)
  · exact c8_visited_memoization.2 selfLoopCtx (Instance.mono 0) emptyState rfl
      (by decide) rfl (by decide) (by decide)

/-- Claim C3 as amended: shim/drop-glue/intrinsic kinds are always local;
a local plain item is local iff it is not a foreign item; an external
plain item is local only if its MIR is available and it is neither
exported nor foreign; and in the §8 scenario (external, not exported,
not foreign, MIR unavailable) `should_trans_locally` fails with the
internal `bug!` error rather than returning `false`. -/
theorem c3_amended_linkage_oracle :
    (∀ (ctx : Ctx) (inst : Instance),
       ((∃ d, inst.idef = InstanceDef.closureOnceShim d) ∨
        (∃ d i, inst.idef = InstanceDef.virtualItem d i) ∨
        (∃ d t, inst.idef = InstanceDef.fnPtrShim d t) ∨
        (∃ d t, inst.idef = InstanceDef.dropGlue d t) ∨
        (∃ d, inst.idef = InstanceDef.intrinsic d)) →
       should_trans_locally ctx inst = .ok true) ∧
    (∀ (ctx : Ctx) (d : DefId) (s : List Ty),
       ctx.get_if_local d = some LocalNode.otherNode →
       should_trans_locally ctx ⟨InstanceDef.item d, s⟩ = .ok true) ∧
    (∀ (ctx : Ctx) (d : DefId) (s : List Ty),
       ctx.get_if_local d = some LocalNode.foreignItem →
       should_trans_locally ctx ⟨InstanceDef.item d, s⟩ = .ok false) ∧
    (∀ (ctx : Ctx) (d : DefId) (s : List Ty),
       ctx.get_if_local d = none →
       should_trans_locally ctx ⟨InstanceDef.item d, s⟩ = .ok true →
       ctx.is_item_mir_available d = true ∧ ctx.is_exported_symbol d = false ∧
         ctx.is_foreign_item d = false) ∧
    (∀ (ctx : Ctx) (d : DefId) (s : List Ty),
       ctx.get_if_local d = none → ctx.is_exported_symbol d = false →
       ctx.is_foreign_item d = false → ctx.is_item_mir_available d = false →
       should_trans_locally ctx ⟨InstanceDef.item d, s⟩ = .error CErr.bug) := by
  refine ⟨?_, ?_, ?_, ?_, ?_⟩
  · intro ctx inst h
    rcases h with ⟨d, h⟩ | ⟨d, i, h⟩ | ⟨d, t, h⟩ | ⟨d, t, h⟩ | ⟨d, h⟩ <;>
      simp [should_trans_locally, h]
  · intro ctx d s h
    simp [should_trans_locally, h]
  · intro ctx d s h
    simp [should_trans_locally, h]
  · intro ctx d s hl h
    by_cases he : ctx.is_exported_symbol d = true
    · simp [should_trans_locally, hl, he] at h
    · by_cases hf : ctx.is_foreign_item d = true
      · simp [should_trans_locally, hl, he, hf] at h
      · by_cases hm : ctx.is_item_mir_available d = true
        · rw [Bool.not_eq_true] at he hf
          exact ⟨hm, he, hf⟩
        · rw [Bool.not_eq_true] at he hf hm
          simp [should_trans_locally, hl, he, hf, hm] at h
  · intro ctx d s h1 h2 h3 h4
    simp [should_trans_locally, h1, h2, h3, h4]

/-- Witness for C3's amended theorem at concrete instances: a drop-glue
shim is always local, a plain local item is local, and the §8 scenario
hits the internal error. -/
theorem c3_witness :
    should_trans_locally trivialCtx ⟨InstanceDef.dropGlue 2 none, []⟩ = .ok true ∧
    should_trans_locally trivialCtx ⟨InstanceDef.item 3, []⟩ = .ok true ∧
    should_trans_locally linkageScenarioCtx ⟨InstanceDef.item 4, []⟩ =
      .error CErr.bug := by
  refine ⟨?_, ?_, ?_⟩
  · exact c3_amended_linkage_oracle.1 trivialCtx ⟨InstanceDef.dropGlue 2 none, []⟩
      (Or.inr (Or.inr (Or.inr (Or.inl ⟨2, none, rfl⟩))))
  · exact c3_amended_linkage_oracle.2.1 trivialCtx 3 [] rfl
  · exact c3_amended_linkage_oracle.2.2.2.2 linkageScenarioCtx 4 [] rfl rfl rfl rfl

end Collector
